import Mathlib

/-!
Shallow embedding of the DisasterDash backend (src/backend/server.py) and
proofs about its specified behaviour.

Modelling conventions:
* MongoDB collections are Lean lists of structure values; `find` with a filter
  is `List.filter`, `find_one` is `List.find?`, `update_one` updates the first
  matching document, `sort(field, -1)` is insertion sort by the reverse order
  (all stored timestamps are ISO-8601 UTC strings of identical shape, whose
  lexicographic order agrees with chronological order, so we model timestamps
  as integers: seconds since the epoch).
* Python floats that the program compares or stores (severity scores 0.6, 0.7)
  are modelled as rationals; the only operations performed on them (equality,
  `>` against a literal of the same provenance) agree with float semantics.
* Fallible handlers return an `Except`-like result carrying the HTTP status
  and detail that FastAPI would produce; an uncaught Python exception is a
  distinguished outcome.
* `datetime` values that the server stores with `.isoformat()` become strings
  in MongoDB and come back as strings.  A value read from a document is
  therefore modelled with `PyTimeVal`, distinguishing a real datetime from an
  ISO string, because `verify_session` subtracts whichever value is stored
  from `datetime.now()`.
-/

/-- A `{lat, lng}` location dictionary. -/
structure Location where
  lat : ℚ
  lng : ℚ
deriving DecidableEq, Repr

/-- A stored report document (model `Report`, server.py:49-64).
`created_at` / `updated_at` are seconds since the epoch (see module docs). -/
structure Report where
  id : String
  reporter_id : String
  title : String
  description : String
  location : Location
  address : Option String
  city : Option String
  country : Option String
  image_url : Option String
  severity : String
  ai_severity_score : Option ℚ
  status : String
  created_at : ℤ
  updated_at : ℤ
  ai_auto_flag : Bool
deriving DecidableEq, Repr

/-- A stored shelter document (model `Shelter`, server.py:81-88). -/
structure Shelter where
  id : String
  name : String
  location : Location
  capacity : ℤ
  contact : String
  type : String
  created_at : ℤ
deriving DecidableEq, Repr

/-- One `{title, severity, priority}` entry of `severity_data`
(see the mock `critical_incidents` built at server.py:339-341). -/
structure SeverityEntry where
  title : String
  severity : String
  priority : ℕ
deriving DecidableEq, Repr

/-- A stored AI-update document (model `AIUpdate`, server.py:97-103). -/
structure AIUpdate where
  id : String
  region : String
  region_name : String
  summary : String
  severity_data : List SeverityEntry
  last_run_at : ℤ
deriving DecidableEq, Repr

/-- A stored user document (model `User`, server.py:33-41). -/
structure UserDoc where
  id : String
  email : String
  name : String
  picture : Option String
  preferred_city : Option String
  role : String
  created_at : ℤ
  last_seen_at : ℤ
deriving DecidableEq, Repr

/-- A Python value holding a point in time, as it comes back from MongoDB:
either an actual `datetime` (epoch seconds) or an ISO-8601 string.
`process_session` persists `datetime.now(timezone.utc).isoformat()`
(server.py:192), i.e. a string. -/
inductive PyTimeVal where
  | dt (epochSec : ℤ)
  | iso (s : String)
deriving DecidableEq, Repr

/-- A stored session document, as inserted at server.py:189-194. -/
structure SessionDoc where
  session_token : String
  user_id : String
  created_at : Option PyTimeVal
deriving DecidableEq, Repr

/-- The five MongoDB collections used by the server. -/
structure DB where
  users : List UserDoc
  reports : List Report
  shelters : List Shelter
  ai_updates : List AIUpdate
  sessions : List SessionDoc
deriving DecidableEq, Repr

/-- Outcome of the `verify_session` dependency (server.py:109-125):
success with a user id, an `HTTPException(status, detail)`, or an uncaught
Python `TypeError` (which FastAPI surfaces as a 500 response). -/
inductive AuthResult where
  | ok (user_id : String)
  | httpError (status : ℕ) (detail : String)
  | typeError
deriving DecidableEq, Repr

/-- Python's `timedelta.days`: the signed difference in seconds floored to
whole days (`timedelta` normalises negative durations the same way). -/
def timedeltaDays (sec : ℤ) : ℤ :=
  Int.fdiv sec 86400

/-- The dependency `verify_session` (server.py:109-125).  Looks the bearer token up in the
sessions collection; if the stored `created_at` is a datetime the session is
rejected with 401 once `(now - created_at).days > 7`; if it is a string (which
is what `process_session` stores) the subtraction
`datetime.now(timezone.utc) - created_at` raises `TypeError`; if it is absent
(falsy) the expiry check is skipped. -/
def verify_session (sessions : List SessionDoc) (authorization : Option String)
    (now : ℤ) : AuthResult :=
  match authorization with
  | none => .httpError 401 "No authorization token provided"
  | some session_token =>
    match sessions.find? (fun s => s.session_token == session_token) with
    | none => .httpError 401 "Invalid session token"
    | some s =>
      match s.created_at with
      | none => .ok s.user_id
      | some (.iso _) => .typeError
      | some (.dt c) =>
        if timedeltaDays (now - c) > 7 then .httpError 401 "Session expired"
        else .ok s.user_id

/-- The session document that `process_session` inserts (server.py:189-194):
`created_at` is `datetime.now(timezone.utc).isoformat()`, a string. -/
def process_session_sessionDoc (session_token user_id : String)
    (isoNow : String) : SessionDoc :=
  { session_token := session_token, user_id := user_id,
    created_at := some (.iso isoNow) }

/-- A concrete sessions collection holding one session as stored by
`process_session` and one hypothetical session whose `created_at` is an
actual datetime (epoch second 0). -/
def c1SessionsStored : List SessionDoc :=
  [process_session_sessionDoc "session_ab12" "user-1" "2026-10-05T00:00:00+00:00"]

def c1SessionsDt : List SessionDoc :=
  [{ session_token := "session_ab12", user_id := "user-1",
     created_at := some (.dt 0) }]

/-- C1: The claim says verification of a session succeeds with the session's
`user_id` whenever the integer-day-truncated age is at most 7 days and fails
with 401 `Unauthorized` once 8 full days have passed.  The code at
server.py:122 does implement that truncation arithmetic, but only for a
`datetime`-valued `created_at`; every session the server actually stores has
`created_at` persisted as an ISO-8601 *string* (server.py:192), and
`datetime.now(timezone.utc) - created_at` then raises `TypeError`, so session
verification answers HTTP 500 for every stored session — never `.ok` and never
401 "Session expired".  This theorem evaluates the code at the failing input
(a stored session checked one second after creation) and also shows that the
claimed boundary behaviour (7 days + 1 second passes, 8 full days fails with
401) would hold for a `datetime`-valued `created_at`. -/
theorem c1_verify_session_type_error :
    verify_session c1SessionsStored (some "session_ab12") 1 = .typeError
    ∧ verify_session c1SessionsDt (some "session_ab12") (7 * 86400 + 1)
        = .ok "user-1"
    ∧ verify_session c1SessionsDt (some "session_ab12") (8 * 86400)
        = .httpError 401 "Session expired" := by
  decide

/-- The user data the external session-exchange endpoint returns on success
(`response.json()` at server.py:164): `{email, name, picture?}`. -/
structure ExchangeUser where
  email : String
  name : String
  picture : Option String
deriving DecidableEq, Repr

/-- Outcome of the external call `requests.get(...)` plus `.json()` parsing in
`process_session` (server.py:156-164): either an HTTP response was obtained
(with its status code and, when the body parses as JSON, the parsed user
data), or the request itself raised at the network level. -/
inductive ExchangeOutcome where
  | resp (status : ℕ) (parsed : Option ExchangeUser)
  | netFail
deriving DecidableEq, Repr

/-- Result of a handler: either an `HTTPException`-style `(status, detail)`
error or a success value. -/
abbrev HandlerResult (α : Type) := Except (ℕ × String) α

/-- Replace the first element satisfying `p` by `f` applied to it
(MongoDB `update_one` semantics: at most one document is modified). -/
def updateFirst (p : α → Bool) (f : α → α) : List α → List α
  | [] => []
  | x :: xs => if p x then f x :: xs else x :: updateFirst p f xs

/-- The handler `process_session` (server.py:150-203).  The whole body runs inside
`try ... except Exception`, and FastAPI's `HTTPException` is an `Exception`
subclass: the explicit `raise HTTPException(401, "Invalid session")` for a
non-200 exchange status is therefore caught at server.py:201 and replaced by
`HTTPException(500, "Session processing failed")`, exactly like a network or
JSON-parse failure.  On success the user is looked up by email (created with
role `"user"` if absent, `last_seen_at` refreshed otherwise), a fresh
`session_<uuid>` token is minted and a session document is inserted with
`created_at` as an ISO string.  `newUserId` and `newToken` stand for the
freshly generated UUID values, `isoNow` for `now.isoformat()`. -/
def process_session (ex : ExchangeOutcome) (db : DB)
    (newUserId newToken : String) (now : ℤ) (isoNow : String) :
    DB × HandlerResult (String × Option UserDoc) :=
  match ex with
  | .netFail => (db, .error (500, "Session processing failed"))
  | .resp status parsed =>
    if status ≠ 200 then
      -- the raised 401 is swallowed by `except Exception` and re-raised as 500
      (db, .error (500, "Session processing failed"))
    else
      match parsed with
      | none => (db, .error (500, "Session processing failed"))
      | some u =>
        let existing := db.users.find? (fun w => w.email == u.email)
        let users' :=
          match existing with
          | none =>
            db.users ++ [{ id := newUserId, email := u.email, name := u.name,
                           picture := u.picture, preferred_city := none,
                           role := "user", created_at := now,
                           last_seen_at := now }]
          | some eu =>
            updateFirst (fun w => w.id == eu.id)
              (fun w => { w with last_seen_at := now }) db.users
        let user_id := match existing with | none => newUserId | some eu => eu.id
        let sessions' :=
          db.sessions ++ [process_session_sessionDoc newToken user_id isoNow]
        let db' := { db with users := users', sessions := sessions' }
        (db', .ok (newToken, users'.find? (fun w => w.id == user_id)))

/-- An empty database. -/
def emptyDB : DB := { users := [], reports := [], shelters := [],
                      ai_updates := [], sessions := [] }

/-- C6: The claim says a non-200 status from the external session exchange
fails with 401 `Unauthorized` ("invalid session") and a network/parse failure
fails with 500 `InternalError` ("session processing failed").  The code does
raise `HTTPException(401, "Invalid session")` at server.py:162, but that raise
sits inside the handler's `try` block and `except Exception` (server.py:201)
catches `HTTPException` too, re-raising `HTTPException(500, "Session
processing failed")`; so the non-200 case actually answers 500, same as the
network/parse case.  Evaluated here at the failing input (exchange status 403)
alongside the two cases the claim gets right. -/
theorem c6_process_session_non200_is_500 :
    process_session (.resp 403 none) emptyDB "uid-1" "session_tok1" 0 "t"
      = (emptyDB, .error (500, "Session processing failed"))
    ∧ process_session .netFail emptyDB "uid-1" "session_tok1" 0 "t"
      = (emptyDB, .error (500, "Session processing failed"))
    ∧ process_session (.resp 200 none) emptyDB "uid-1" "session_tok1" 0 "t"
      = (emptyDB, .error (500, "Session processing failed")) :=
  ⟨rfl, rfl, rfl⟩

/-- The JSON body a client may POST to `/reports`, including fields the
`ReportCreate` pydantic model (server.py:66-74) does *not* declare; pydantic
silently drops undeclared keys when parsing the body.  An omitted `severity`
defaults to `"moderate"`. -/
structure RawReportPayload where
  title : String
  description : String
  location : Location
  address : Option String := none
  city : Option String := none
  country : Option String := none
  image_url : Option String := none
  severity : Option String := none
  reporter_id : Option String := none
  status : Option String := none
  ai_severity_score : Option ℚ := none
  ai_auto_flag : Option Bool := none
deriving DecidableEq, Repr

/-- The parsed `ReportCreate` model (server.py:66-74). -/
structure ReportCreate where
  title : String
  description : String
  location : Location
  address : Option String
  city : Option String
  country : Option String
  image_url : Option String
  severity : String
deriving DecidableEq, Repr

/-- FastAPI parsing the request body into `ReportCreate`: declared fields are
kept, everything else (`reporter_id`, `status`, `ai_severity_score`,
`ai_auto_flag`) is ignored; `severity` defaults to `"moderate"`. -/
def parseReportCreate (p : RawReportPayload) : ReportCreate :=
  { title := p.title, description := p.description, location := p.location,
    address := p.address, city := p.city, country := p.country,
    image_url := p.image_url, severity := p.severity.getD "moderate" }

/-- The handler `create_report` (server.py:226-233): `report.dict()` is extended with
`reporter_id = user_id` and passed to `Report(**...)`, whose defaults fill in
`status = "pending"`, `ai_severity_score = None`, `ai_auto_flag = False` and
fresh timestamps.  `rid` stands for the generated UUID, `now` for
`datetime.now(timezone.utc)`.  The same record is inserted and returned. -/
def create_report (rc : ReportCreate) (user_id rid : String) (now : ℤ) :
    Report :=
  { id := rid, reporter_id := user_id, title := rc.title,
    description := rc.description, location := rc.location,
    address := rc.address, city := rc.city, country := rc.country,
    image_url := rc.image_url, severity := rc.severity,
    ai_severity_score := none, status := "pending",
    created_at := now, updated_at := now, ai_auto_flag := false }

/-- The authenticated `/reports` POST handler as a whole: parse the body,
build the report, insert it into the reports collection, return it. -/
def create_report_endpoint (p : RawReportPayload) (user_id rid : String)
    (now : ℤ) (db : DB) : DB × Report :=
  let r := create_report (parseReportCreate p) user_id rid now
  ({ db with reports := db.reports ++ [r] }, r)

/-- C4: for every authenticated create-report request — whatever
`reporter_id`, `status`, `ai_severity_score` or `ai_auto_flag` the client put
in the body — the record stored and returned has `reporter_id` equal to the
caller's user id, `status = "pending"`, `ai_severity_score = null` and
`ai_auto_flag = false`. -/
theorem c4_create_report_forces_fields (p : RawReportPayload)
    (user_id rid : String) (now : ℤ) (db : DB) :
    (create_report_endpoint p user_id rid now db).2.reporter_id = user_id
    ∧ (create_report_endpoint p user_id rid now db).2.status = "pending"
    ∧ (create_report_endpoint p user_id rid now db).2.ai_severity_score = none
    ∧ (create_report_endpoint p user_id rid now db).2.ai_auto_flag = false
    ∧ (create_report_endpoint p user_id rid now db).1.reports
        = db.reports ++ [(create_report_endpoint p user_id rid now db).2] :=
  ⟨rfl, rfl, rfl, rfl, rfl⟩

/-- The descending `created_at` order used by `.sort("created_at", -1)`. -/
def createdDesc (a b : Report) : Prop := b.created_at ≤ a.created_at

instance : DecidableRel createdDesc :=
  fun a b => Int.decLe b.created_at a.created_at

instance : IsTotal Report createdDesc := ⟨fun a b => le_total b.created_at a.created_at⟩

instance : IsTrans Report createdDesc :=
  ⟨fun _ _ _ hab hbc => le_trans hbc hab⟩

/-- Sort reports by `created_at` descending, as `.sort("created_at", -1)`
does (stored `created_at` values are same-shape ISO-8601 UTC strings, whose
lexicographic order is chronological order). -/
def sortReportsDesc (l : List Report) : List Report :=
  l.insertionSort createdDesc

/-- Python truthiness applied to an optional query parameter: `if city:` skips
both an absent parameter and an empty string (server.py:238, 240). -/
def truthyParam : Option String → Option String
  | none => none
  | some s => if s = "" then none else some s

/-- The MongoDB query document built by `get_reports` matched against one
report: each (truthy) filter is an exact equality test on the field. -/
def matchesQuery (cityQ statusQ : Option String) (r : Report) : Bool :=
  (match cityQ with
   | none => true
   | some c => r.city == some c)
  && (match statusQ with
      | none => true
      | some s => r.status == s)

/-- The handler `get_reports` (server.py:235-244): build the query from the truthy
parameters, find the matching reports, sort by `created_at` descending, and
return at most the first 1000 (`.to_list(1000)`).  No authentication is
involved: the handler takes no auth dependency. -/
def get_reports (db : DB) (city status : Option String) : List Report :=
  ((db.reports.filter
      (matchesQuery (truthyParam city) (truthyParam status))).insertionSort
    createdDesc).take 1000

/-- C10: a filter supplied as the empty string is truthiness-dropped exactly
like an absent filter, so the listing is identical in both cases — the empty
string is never matched against the reports' fields. -/
theorem c10_empty_filter_is_no_filter (db : DB) (city status : Option String) :
    get_reports db (some "") status = get_reports db none status
    ∧ get_reports db city (some "") = get_reports db city none := by
  constructor
  · rfl
  · unfold get_reports truthyParam
    cases city <;> simp

/-- A concrete report in Paris (all other optional fields null). -/
def reportParis : Report :=
  { id := "r-paris", reporter_id := "user-1", title := "Flood",
    description := "Seine overflow", location := { lat := 48, lng := 2 },
    address := none, city := some "Paris", country := some "France",
    image_url := none, severity := "critical", ai_severity_score := none,
    status := "pending", created_at := 100, updated_at := 100,
    ai_auto_flag := false }

/-- A database holding just `reportParis`. -/
def exDb9 : DB := { emptyDB with reports := [reportParis] }

/-- The `i`-th of 1001 pairwise distinct reports (distinguished by
`created_at`). -/
def mkNumberedReport (i : ℕ) : Report :=
  { reportParis with id := "r-num", created_at := i, updated_at := i }

/-- A database with 1001 distinct reports, one more than `.to_list(1000)`
will return. -/
def bigDb : DB := { emptyDB with reports := (List.range 1001).map mkNumberedReport }

theorem mkNumberedReport_injective : Function.Injective mkNumberedReport := by
  intro i j h
  have hc := congrArg Report.created_at h
  simpa [mkNumberedReport] using hc

set_option maxRecDepth 4000 in
/-- C9 counterexample: the claim quantifies over *every* supplied filter and
*every* database state.  (a) With the filter `city=""` the handler drops the
filter (`if city:` is false for the empty string) and returns `reportParis`,
whose `city` is `"Paris"`, not `""` — so the result is not "exactly the
records whose fields equal the supplied filter values".  (b) With 1001
matching reports, `.to_list(1000)` truncates the result, so some matching
record is missing from the listing. -/
theorem c9_counterexample :
    (get_reports exDb9 (some "") none = [reportParis]
      ∧ reportParis.city = some "Paris")
    ∧ ¬ (∀ r ∈ bigDb.reports, r ∈ get_reports bigDb none none) := by
  refine ⟨⟨rfl, rfl⟩, ?_⟩
  intro hAll
  have hnodup : bigDb.reports.Nodup :=
    (List.nodup_range 1001).map mkNumberedReport_injective
  have hlen : bigDb.reports.length = 1001 := by
    simp [bigDb, emptyDB]
  have hsub : bigDb.reports ⊆ get_reports bigDb none none := hAll
  have hle : bigDb.reports.length ≤ (get_reports bigDb none none).length :=
    (hnodup.subperm hsub).length_le
  have hfilter : bigDb.reports.filter (matchesQuery none none) = bigDb.reports :=
    List.filter_eq_self.mpr (fun r _ => rfl)
  have hreslen : (get_reports bigDb none none).length ≤ 1000 := by
    unfold get_reports truthyParam
    rw [List.length_take]
    exact min_le_left _ _
  omega

/-- The function `truthyParam` is the identity on parameters that are absent or
non-empty. -/
theorem truthyParam_eq_self (o : Option String)
    (h : ∀ s, o = some s → s ≠ "") : truthyParam o = o := by
  cases o with
  | none => rfl
  | some s => simp [truthyParam, h s rfl]

/-- C9 (amended): for every database state and every city/status filter whose
supplied values are non-empty (the handler treats an empty-string filter as
absent — see C10), `get_reports` returns matching records only, exactly
matched on the supplied fields, sorted by `created_at` descending; and
whenever at most 1000 records match (MongoDB `.to_list(1000)` cap) the result
is exactly the matching records.  The handler takes no auth dependency, so no
authentication is required. -/
theorem c9_list_reports_amended (db : DB) (city status : Option String)
    (hc : ∀ s, city = some s → s ≠ "")
    (hs : ∀ s, status = some s → s ≠ "") :
    List.Sorted createdDesc (get_reports db city status)
    ∧ (∀ r ∈ get_reports db city status,
        r ∈ db.reports ∧ matchesQuery city status r = true)
    ∧ ((db.reports.filter (matchesQuery city status)).length ≤ 1000 →
        ∀ r, r ∈ get_reports db city status ↔
          r ∈ db.reports ∧ matchesQuery city status r = true) := by
  have hcity := truthyParam_eq_self city hc
  have hstatus := truthyParam_eq_self status hs
  unfold get_reports
  rw [hcity, hstatus]
  refine ⟨?_, ?_, ?_⟩
  · exact (List.sorted_insertionSort createdDesc _).sublist
      (List.take_sublist 1000 _)
  · intro r hr
    have hr' := (List.mem_insertionSort _).mp (List.mem_of_mem_take hr)
    exact ⟨(List.mem_filter.mp hr').1, (List.mem_filter.mp hr').2⟩
  · intro hlen r
    have hlen' : ((db.reports.filter
        (matchesQuery city status)).insertionSort createdDesc).length ≤ 1000 := by
      rw [List.length_insertionSort]
      exact hlen
    rw [List.take_of_length_le hlen', List.mem_insertionSort, List.mem_filter]

/-- Witness for C9 (amended): the hypotheses hold for the non-empty filter
`city="Paris"` on the one-report database, and the theorem yields sortedness
together with the exact-match characterisation at `reportParis`. -/
theorem c9_list_reports_amended_witness :
    List.Sorted createdDesc (get_reports exDb9 (some "Paris") none)
    ∧ (reportParis ∈ get_reports exDb9 (some "Paris") none ↔
        reportParis ∈ exDb9.reports
          ∧ matchesQuery (some "Paris") none reportParis = true) := by
  have h := c9_list_reports_amended exDb9 (some "Paris") none
    (by intro s hsome; cases hsome; decide)
    (by intro s hsome; cases hsome)
  exact ⟨h.1, h.2.2 (by decide) reportParis⟩

/-- The `ReportUpdate` request model (server.py:76-79): `status` is required,
the two AI fields are optional and may be null. -/
structure ReportUpdate where
  status : String
  ai_severity_score : Option ℚ
  ai_auto_flag : Option Bool
deriving DecidableEq, Repr

/-- The `$set` document applied to the matched report (server.py:255-258):
`update.dict()` filtered to the non-`None` values (`status` is never `None`),
plus a refreshed `updated_at`. -/
def applyUpdate (u : ReportUpdate) (now : ℤ) (r : Report) : Report :=
  { r with
    status := u.status,
    ai_severity_score :=
      match u.ai_severity_score with
      | some s => some s
      | none => r.ai_severity_score,
    ai_auto_flag :=
      match u.ai_auto_flag with
      | some b => b
      | none => r.ai_auto_flag,
    updated_at := now }

/-- The handler `update_report` (server.py:253-262): `update_one({"id": report_id},
{"$set": update_data})` modifies the first document whose `id` matches; a
`matched_count` of zero yields `HTTPException(404, "Report not found")`.
Returns the reports collection after the call together with the handler
outcome. -/
def update_report (reports : List Report) (report_id : String)
    (u : ReportUpdate) (now : ℤ) :
    List Report × Option (ℕ × String) :=
  if reports.any (fun r => r.id == report_id) then
    (updateFirst (fun r => r.id == report_id) (applyUpdate u now) reports, none)
  else
    (reports, some (404, "Report not found"))

/-- The function `updateFirst` rewrites exactly the first element satisfying `p`. -/
theorem updateFirst_append (p : α → Bool) (f : α → α) (pre : List α) (r : α)
    (post : List α) (hpre : ∀ x ∈ pre, p x = false) (hr : p r = true) :
    updateFirst p f (pre ++ r :: post) = pre ++ f r :: post := by
  induction pre with
  | nil => simp [updateFirst, hr]
  | cons a as ih =>
    have ha : p a = false := hpre a (by simp)
    have ih' := ih (fun x hx => hpre x (by simp [hx]))
    simp [updateFirst, ha, ih']

/-- C5: admin report update is a partial update.  (i) If no report has the
requested id the handler fails with 404 `NotFound` and the collection is
unchanged.  (ii) Otherwise exactly the first report with that id is replaced
by `applyUpdate` and every other stored report is untouched.  (iii)
`applyUpdate` changes only the fields present and non-null in the request
plus `updated_at`: `status` (always present) is set, each AI field is set
only when non-null and left untouched when omitted/null (never nulled), every
other field is preserved, and `updated_at` is always refreshed. -/
theorem c5_update_report_frame (reports : List Report) (report_id : String)
    (u : ReportUpdate) (now : ℤ) :
    ((∀ r ∈ reports, r.id ≠ report_id) →
      update_report reports report_id u now
        = (reports, some (404, "Report not found")))
    ∧ (∀ pre r post, reports = pre ++ r :: post →
        (∀ x ∈ pre, x.id ≠ report_id) → r.id = report_id →
        update_report reports report_id u now
          = (pre ++ applyUpdate u now r :: post, none))
    ∧ (∀ r : Report,
        (applyUpdate u now r).id = r.id
        ∧ (applyUpdate u now r).reporter_id = r.reporter_id
        ∧ (applyUpdate u now r).title = r.title
        ∧ (applyUpdate u now r).description = r.description
        ∧ (applyUpdate u now r).location = r.location
        ∧ (applyUpdate u now r).address = r.address
        ∧ (applyUpdate u now r).city = r.city
        ∧ (applyUpdate u now r).country = r.country
        ∧ (applyUpdate u now r).image_url = r.image_url
        ∧ (applyUpdate u now r).severity = r.severity
        ∧ (applyUpdate u now r).created_at = r.created_at
        ∧ (applyUpdate u now r).status = u.status
        ∧ (applyUpdate u now r).updated_at = now
        ∧ (u.ai_severity_score = none →
            (applyUpdate u now r).ai_severity_score = r.ai_severity_score)
        ∧ (∀ s, u.ai_severity_score = some s →
            (applyUpdate u now r).ai_severity_score = some s)
        ∧ (u.ai_auto_flag = none →
            (applyUpdate u now r).ai_auto_flag = r.ai_auto_flag)
        ∧ (∀ b, u.ai_auto_flag = some b →
            (applyUpdate u now r).ai_auto_flag = b)) := by
  refine ⟨?_, ?_, ?_⟩
  · intro hnone
    have hany : reports.any (fun r => r.id == report_id) = false := by
      rw [List.any_eq_false]
      intro r hr
      simpa using hnone r hr
    simp [update_report, hany]
  · intro pre r post hsplit hpre hr
    subst hsplit
    have hany : (pre ++ r :: post).any (fun x => x.id == report_id) = true := by
      rw [List.any_eq_true]
      exact ⟨r, by simp, by simp [hr]⟩
    have hfirst := updateFirst_append (fun x => x.id == report_id)
      (applyUpdate u now) pre r post
      (fun x hx => by simpa using hpre x hx) (by simp [hr])
    simp [update_report, hany, hfirst]
  · intro r
    refine ⟨rfl, rfl, rfl, rfl, rfl, rfl, rfl, rfl, rfl, rfl, rfl, rfl, rfl,
      ?_, ?_, ?_, ?_⟩
    · intro h
      simp [applyUpdate, h]
    · intro s h
      simp [applyUpdate, h]
    · intro h
      simp [applyUpdate, h]
    · intro b h
      simp [applyUpdate, h]

/-- A second distinct report, reused by witnesses. -/
def reportOther : Report :=
  { reportParis with
    id := "r-other", severity := "moderate", created_at := 50,
    updated_at := 50 }

/-- The concrete `{status: "validated"}` update of the spec's test scenario. -/
def exUpdateValidated : ReportUpdate :=
  { status := "validated", ai_severity_score := none, ai_auto_flag := none }

/-- Witness for C5: on a two-report collection the update with
`{status:"validated"}` rewrites only the report with the requested id, and a
missing id answers 404 with the collection unchanged. -/
theorem c5_update_report_frame_witness :
    update_report [reportOther, reportParis] "r-paris" exUpdateValidated 999
      = ([reportOther, applyUpdate exUpdateValidated 999 reportParis], none)
    ∧ update_report [reportOther] "r-missing" exUpdateValidated 1
      = ([reportOther], some (404, "Report not found")) := by
  constructor
  · exact (c5_update_report_frame [reportOther, reportParis] "r-paris"
      exUpdateValidated 999).2.1 [reportOther] reportParis []
      rfl (by decide) rfl
  · exact (c5_update_report_frame [reportOther] "r-missing"
      exUpdateValidated 1).1 (by decide)

/-- The descending `last_run_at` order used by `.sort("last_run_at", -1)`. -/
def lastRunDesc (a b : AIUpdate) : Prop := b.last_run_at ≤ a.last_run_at

instance : DecidableRel lastRunDesc :=
  fun a b => Int.decLe b.last_run_at a.last_run_at

/-- The compact projection of a report built for the dashboard
(server.py:410-418).  Every stored report document carries the `city` /
`country` keys (the pydantic models always serialise them, possibly as null),
so `report.get("city", "Unknown")` returns the stored value and the
`"Unknown"` default never fires; a null stays null. -/
structure DashboardItem where
  id : String
  title : String
  city : Option String
  country : Option String
  severity : String
  created_at : ℤ
  location : Location
deriving DecidableEq, Repr

def projectItem (r : Report) : DashboardItem :=
  { id := r.id, title := r.title, city := r.city, country := r.country,
    severity := r.severity, created_at := r.created_at,
    location := r.location }

/-- The six severity accumulators of the dashboard loop
(server.py:402-407). -/
structure Buckets where
  city_critical : List DashboardItem
  city_moderate : List DashboardItem
  city_low : List DashboardItem
  world_critical : List DashboardItem
  world_moderate : List DashboardItem
  world_low : List DashboardItem
deriving DecidableEq, Repr

/-- The categorisation loop (server.py:409-429): each report's projection is
appended to both the city-scoped and the world-scoped list chosen by its
`severity` field (`critical`, `moderate`, anything else to `low`). -/
def categorize6 : List Report → Buckets
  | [] => { city_critical := [], city_moderate := [], city_low := [],
            world_critical := [], world_moderate := [], world_low := [] }
  | r :: rest =>
    let b := categorize6 rest
    if r.severity == "critical" then
      { b with
        city_critical := projectItem r :: b.city_critical,
        world_critical := projectItem r :: b.world_critical }
    else if r.severity == "moderate" then
      { b with
        city_moderate := projectItem r :: b.city_moderate,
        world_moderate := projectItem r :: b.world_moderate }
    else
      { b with
        city_low := projectItem r :: b.city_low,
        world_low := projectItem r :: b.world_low }

/-- The combined payload of `GET /dashboard/data` (server.py:431-446), with
`city_data` / `world_data` flattened into six named lists. -/
structure DashboardPayload where
  reports : List Report
  shelters : List Shelter
  ai_updates : List AIUpdate
  city_critical : List DashboardItem
  city_moderate : List DashboardItem
  city_low : List DashboardItem
  world_critical : List DashboardItem
  world_moderate : List DashboardItem
  world_low : List DashboardItem
  last_ai_update : Option ℤ
deriving DecidableEq, Repr

/-- The reports fetched by the dashboard (server.py:393): all reports sorted
by `created_at` descending, capped at 100. -/
def dashboardReports (db : DB) : List Report :=
  (db.reports.insertionSort createdDesc).take 100

/-- The handler `get_dashboard_data` (server.py:389-446). -/
def get_dashboard_data (db : DB) : DashboardPayload :=
  let reports := dashboardReports db
  let shelters := db.shelters.take 100
  let ai_updates := (db.ai_updates.insertionSort lastRunDesc).take 20
  let b := categorize6 reports
  { reports := reports, shelters := shelters, ai_updates := ai_updates,
    city_critical := b.city_critical.take 5,
    city_moderate := b.city_moderate.take 5,
    city_low := b.city_low.take 5,
    world_critical := b.world_critical.take 5,
    world_moderate := b.world_moderate.take 5,
    world_low := b.world_low.take 5,
    last_ai_update :=
      match ai_updates with
      | [] => none
      | u :: _ => some u.last_run_at }

/-- C2: whatever the database holds, each of the six per-severity dashboard
lists (`city_data` and `world_data`, each with critical/moderate/low) is a
`[:5]` slice and so contains at most 5 items. -/
theorem c2_dashboard_buckets_at_most_5 (db : DB) :
    (get_dashboard_data db).city_critical.length ≤ 5
    ∧ (get_dashboard_data db).city_moderate.length ≤ 5
    ∧ (get_dashboard_data db).city_low.length ≤ 5
    ∧ (get_dashboard_data db).world_critical.length ≤ 5
    ∧ (get_dashboard_data db).world_moderate.length ≤ 5
    ∧ (get_dashboard_data db).world_low.length ≤ 5 := by
  refine ⟨?_, ?_, ?_, ?_, ?_, ?_⟩ <;>
    simp [get_dashboard_data, List.length_take]

/-- The dashboard loop appends every item to the city list and to the world
list of its severity alike, so the two scopes accumulate equal lists. -/
theorem categorize6_city_eq_world (l : List Report) :
    (categorize6 l).city_critical = (categorize6 l).world_critical
    ∧ (categorize6 l).city_moderate = (categorize6 l).world_moderate
    ∧ (categorize6 l).city_low = (categorize6 l).world_low := by
  induction l with
  | nil => exact ⟨rfl, rfl, rfl⟩
  | cons r rest ih =>
    by_cases h1 : r.severity == "critical"
    · simp [categorize6, h1, ih.1, ih.2.1, ih.2.2]
    · by_cases h2 : r.severity == "moderate"
      · simp [categorize6, h1, h2, ih.1, ih.2.1, ih.2.2]
      · simp [categorize6, h1, h2, ih.1, ih.2.1, ih.2.2]

/-- Every report of the fetched list lands (projected) in the bucket selected
by its severity, in both scopes. -/
theorem mem_categorize6 (l : List Report) (r : Report) (hr : r ∈ l) :
    (r.severity = "critical" →
      projectItem r ∈ (categorize6 l).city_critical
      ∧ projectItem r ∈ (categorize6 l).world_critical)
    ∧ (r.severity = "moderate" →
      projectItem r ∈ (categorize6 l).city_moderate
      ∧ projectItem r ∈ (categorize6 l).world_moderate)
    ∧ (r.severity ≠ "critical" → r.severity ≠ "moderate" →
      projectItem r ∈ (categorize6 l).city_low
      ∧ projectItem r ∈ (categorize6 l).world_low) := by
  induction l with
  | nil => cases hr
  | cons a rest ih =>
    rcases List.mem_cons.mp hr with h | h
    · subst h
      refine ⟨?_, ?_, ?_⟩
      · intro hs
        simp [categorize6, hs]
      · intro hs
        simp [categorize6, hs]
      · intro hs1 hs2
        simp [categorize6, hs1, hs2]
    · have ih' := ih h
      refine ⟨?_, ?_, ?_⟩
      · intro hs
        by_cases h1 : a.severity == "critical"
        · simp [categorize6, h1, (ih'.1 hs).1, (ih'.1 hs).2]
        · by_cases h2 : a.severity == "moderate"
          · simp [categorize6, h1, h2, (ih'.1 hs).1, (ih'.1 hs).2]
          · simp [categorize6, h1, h2, (ih'.1 hs).1, (ih'.1 hs).2]
      · intro hs
        by_cases h1 : a.severity == "critical"
        · simp [categorize6, h1, (ih'.2.1 hs).1, (ih'.2.1 hs).2]
        · by_cases h2 : a.severity == "moderate"
          · simp [categorize6, h1, h2, (ih'.2.1 hs).1, (ih'.2.1 hs).2]
          · simp [categorize6, h1, h2, (ih'.2.1 hs).1, (ih'.2.1 hs).2]
      · intro hs1 hs2
        by_cases h1 : a.severity == "critical"
        · simp [categorize6, h1, (ih'.2.2 hs1 hs2).1, (ih'.2.2 hs1 hs2).2]
        · by_cases h2 : a.severity == "moderate"
          · simp [categorize6, h1, h2, (ih'.2.2 hs1 hs2).1,
              (ih'.2.2 hs1 hs2).2]
          · simp [categorize6, h1, h2, (ih'.2.2 hs1 hs2).1,
              (ih'.2.2 hs1 hs2).2]

/-- Members of each city bucket carry the severity of that bucket (the
projection preserves the `severity` field). -/
theorem categorize6_sev_of_mem (l : List Report) :
    (∀ it ∈ (categorize6 l).city_critical, it.severity = "critical")
    ∧ (∀ it ∈ (categorize6 l).city_moderate, it.severity = "moderate")
    ∧ (∀ it ∈ (categorize6 l).city_low,
        it.severity ≠ "critical" ∧ it.severity ≠ "moderate") := by
  induction l with
  | nil => exact ⟨fun it h => absurd h (List.not_mem_nil it),
      fun it h => absurd h (List.not_mem_nil it),
      fun it h => absurd h (List.not_mem_nil it)⟩
  | cons a rest ih =>
    by_cases h1 : a.severity == "critical"
    · refine ⟨?_, ?_, ?_⟩
      · intro it hit
        rcases List.mem_cons.mp (by simpa [categorize6, h1] using hit)
          with h | h
        · subst h
          simpa [projectItem] using (beq_iff_eq.mp h1)
        · exact ih.1 it h
      · intro it hit
        exact ih.2.1 it (by simpa [categorize6, h1] using hit)
      · intro it hit
        exact ih.2.2 it (by simpa [categorize6, h1] using hit)
    · by_cases h2 : a.severity == "moderate"
      · refine ⟨?_, ?_, ?_⟩
        · intro it hit
          exact ih.1 it (by simpa [categorize6, h1, h2] using hit)
        · intro it hit
          rcases List.mem_cons.mp (by simpa [categorize6, h1, h2] using hit)
            with h | h
          · subst h
            simpa [projectItem] using (beq_iff_eq.mp h2)
          · exact ih.2.1 it h
        · intro it hit
          exact ih.2.2 it (by simpa [categorize6, h1, h2] using hit)
      · refine ⟨?_, ?_, ?_⟩
        · intro it hit
          exact ih.1 it (by simpa [categorize6, h1, h2] using hit)
        · intro it hit
          exact ih.2.1 it (by simpa [categorize6, h1, h2] using hit)
        · intro it hit
          rcases List.mem_cons.mp (by simpa [categorize6, h1, h2] using hit)
            with h | h
          · subst h
            constructor
            · simpa [projectItem] using (fun he => h1 (by simp [he]))
            · simpa [projectItem] using (fun he => h2 (by simp [he]))
          · exact ih.2.2 it h

/-- The example database of the spec's scenario: a freshly created critical
report in Paris (`reportParis`, the most recent `created_at`) next to an
older moderate report. -/
def exDb3 : DB := { emptyDB with reports := [reportOther, reportParis] }

set_option maxRecDepth 4000 in
/-- C3: the dashboard aggregator buckets every fetched report into exactly
one of the three severity buckets by its `severity` field (any value other
than `critical`/`moderate` goes to `low`), places each bucketed item into
both the city-scoped and the world-scoped list for that severity, and the
`city_data` and `world_data` sections of the payload are equal for every
database state; concretely, the freshly created critical Paris report's
compact projection appears in both `city_data.critical` and
`world_data.critical`. -/
theorem c3_dashboard_buckets (db : DB) :
    ((get_dashboard_data db).city_critical
        = (get_dashboard_data db).world_critical
      ∧ (get_dashboard_data db).city_moderate
        = (get_dashboard_data db).world_moderate
      ∧ (get_dashboard_data db).city_low = (get_dashboard_data db).world_low)
    ∧ (∀ r ∈ dashboardReports db,
        (r.severity = "critical" →
          projectItem r ∈ (categorize6 (dashboardReports db)).city_critical
          ∧ projectItem r ∈ (categorize6 (dashboardReports db)).world_critical
          ∧ projectItem r ∉ (categorize6 (dashboardReports db)).city_moderate
          ∧ projectItem r ∉ (categorize6 (dashboardReports db)).city_low)
        ∧ (r.severity = "moderate" →
          projectItem r ∈ (categorize6 (dashboardReports db)).city_moderate
          ∧ projectItem r ∈ (categorize6 (dashboardReports db)).world_moderate
          ∧ projectItem r ∉ (categorize6 (dashboardReports db)).city_critical
          ∧ projectItem r ∉ (categorize6 (dashboardReports db)).city_low)
        ∧ (r.severity ≠ "critical" → r.severity ≠ "moderate" →
          projectItem r ∈ (categorize6 (dashboardReports db)).city_low
          ∧ projectItem r ∈ (categorize6 (dashboardReports db)).world_low
          ∧ projectItem r ∉ (categorize6 (dashboardReports db)).city_critical
          ∧ projectItem r ∉ (categorize6 (dashboardReports db)).city_moderate))
    ∧ (projectItem reportParis ∈ (get_dashboard_data exDb3).city_critical
      ∧ projectItem reportParis ∈ (get_dashboard_data exDb3).world_critical) := by
  refine ⟨?_, ?_, ?_⟩
  · have h := categorize6_city_eq_world (dashboardReports db)
    refine ⟨?_, ?_, ?_⟩
    · simp [get_dashboard_data, h.1]
    · simp [get_dashboard_data, h.2.1]
    · simp [get_dashboard_data, h.2.2]
  · intro r hr
    have hm := mem_categorize6 (dashboardReports db) r hr
    have hsv := categorize6_sev_of_mem (dashboardReports db)
    refine ⟨?_, ?_, ?_⟩
    · intro hcrit
      refine ⟨(hm.1 hcrit).1, (hm.1 hcrit).2, ?_, ?_⟩
      · intro hmem
        have h2 : r.severity = "moderate" := hsv.2.1 _ hmem
        rw [hcrit] at h2
        exact absurd h2 (by decide)
      · intro hmem
        exact (hsv.2.2 _ hmem).1 hcrit
    · intro hmod
      refine ⟨(hm.2.1 hmod).1, (hm.2.1 hmod).2, ?_, ?_⟩
      · intro hmem
        have h2 : r.severity = "critical" := hsv.1 _ hmem
        rw [hmod] at h2
        exact absurd h2 (by decide)
      · intro hmem
        exact (hsv.2.2 _ hmem).2 hmod
    · intro hs1 hs2
      refine ⟨(hm.2.2 hs1 hs2).1, (hm.2.2 hs1 hs2).2, ?_, ?_⟩
      · intro hmem
        exact hs1 (hsv.1 _ hmem)
      · intro hmem
        exact hs2 (hsv.2.1 _ hmem)
  · constructor
    · decide
    · decide

set_option maxRecDepth 4000 in
/-- Witness for C3: applied to the concrete scenario database, the theorem
puts the critical Paris report's projection in both critical bucket lists and
in neither of the other city buckets. -/
theorem c3_dashboard_buckets_witness :
    projectItem reportParis
        ∈ (categorize6 (dashboardReports exDb3)).city_critical
    ∧ projectItem reportParis
        ∈ (categorize6 (dashboardReports exDb3)).world_critical
    ∧ projectItem reportParis
        ∉ (categorize6 (dashboardReports exDb3)).city_moderate
    ∧ projectItem reportParis
        ∉ (categorize6 (dashboardReports exDb3)).city_low := by
  have h := ((c3_dashboard_buckets exDb3).2.1 reportParis (by decide)).1 rfl
  exact ⟨h.1, h.2.1, h.2.2.1, h.2.2.2⟩

/-- Success value of the `/ai/analyze` handler: the no-op answer
`{"message": "No recent reports to analyze"}` (server.py:293) or the summary
counts answer (server.py:368-372). -/
inductive AnalyzeResult where
  | noReports
  | completed (cities_analyzed updates_created : ℕ)
deriving DecidableEq, Repr

/-- Detail produced when `EMERGENT_LLM_KEY` is unset: the explicit
`HTTPException(500, "AI service not configured")` raised at server.py:285 is
itself caught by `except Exception` (server.py:374) and re-raised as
`AI analysis failed: {str(e)}`. -/
def ai_not_configured_detail : String :=
  "AI analysis failed: 500: AI service not configured"

/-- Detail produced on every keyed invocation: server.py:289 evaluates
`datetime.timedelta(days=1)`, but the module imports `from datetime import
datetime, timezone`, so `datetime` names the class `datetime.datetime`,
which has no `timedelta` attribute; the `AttributeError` is raised while the
query document is being built — before any database access — and the
`except Exception` handler converts it to a 500. -/
def ai_attribute_error_detail : String :=
  "AI analysis failed: type object 'datetime.datetime' has no attribute 'timedelta'"

/-- The handler `trigger_ai_analysis` (server.py:278-376) as it actually executes: both
the missing-key fast path and the keyed path end in a 500 before the
recent-reports fetch completes, so the handler never reaches the
no-reports check or the per-city loop and the database is never modified. -/
def trigger_ai_analysis (emergent_key : Option String) (db : DB) :
    DB × HandlerResult AnalyzeResult :=
  match emergent_key with
  | none => (db, .error (500, ai_not_configured_detail))
  | some _ => (db, .error (500, ai_attribute_error_detail))

/-- One step of the grouping loop (server.py:296-301): append `r` to the
group keyed `key`, or open a new group at the end (Python dicts preserve
first-insertion key order). -/
def insertGrouped (key : Option String) (r : Report) :
    List (Option String × List Report) → List (Option String × List Report)
  | [] => [(key, [r])]
  | (k, g) :: rest =>
    if k == key then (k, g ++ [r]) :: rest
    else (k, g) :: insertGrouped key r rest

/-- Group the recent reports by the `city` value (`report.get("city",
"Unknown")`; every stored report document carries the key, so the stored
value — possibly null — is the grouping key and the `"Unknown"` default
never fires). -/
def groupByCity (recent : List Report) : List (Option String × List Report) :=
  recent.foldl (fun acc r => insertGrouped r.city r acc) []

/-- The fixed mock severity score (server.py:338). -/
def mockScore : ℚ := 6/10

/-- The formulaic summary string (server.py:342). -/
def mockSummary (n : ℕ) (city : String) : String :=
  "Monitoring " ++ toString n ++ " incidents in " ++ city
    ++ ". Situation under control."

/-- The single mock incident entry built from the group's first report
(server.py:339-341). -/
def mockIncidents (ms : List Report) : List SeverityEntry :=
  match ms with
  | [] => []
  | m :: _ => [{ title := m.title, severity := "moderate", priority := 1 }]

/-- The `AIUpdate` persisted for one city group (server.py:346-354). -/
def mkAIUpdate (uid : String) (now : ℤ) (city : String) (ms : List Report) :
    AIUpdate :=
  { id := uid, region := "city", region_name := city,
    summary := mockSummary ms.length city,
    severity_data := mockIncidents ms, last_run_at := now }

/-- The `$set` applied to each report of a group (server.py:359-366):
`ai_severity_score` from the group's score, `ai_auto_flag = (score > 0.7)`,
refreshed `updated_at`. -/
def patchAI (now : ℤ) (r : Report) : Report :=
  { r with
    ai_severity_score := some mockScore,
    ai_auto_flag := decide (mockScore > 7/10),
    updated_at := now }

/-- The patch-back loop over one group's members: one `update_one` by id per
member (server.py:358-366). -/
def patchReports (now : ℤ) (ms : List Report) (reports : List Report) :
    List Report :=
  ms.foldl
    (fun acc m => updateFirst (fun r => r.id == m.id) (patchAI now) acc) reports

/-- The per-city loop (server.py:306-366) run over the grouped reports: for
each group persist one `AIUpdate` and patch the group's members.  A group
keyed by a null city would make `AIUpdate(region_name=None)` fail pydantic
validation; the exception would be converted to a 500 by the surrounding
`except`, with the earlier groups' writes left in place (no rollback). -/
def processGroups (mkId : ℕ → String) (now : ℤ) :
    ℕ → List (Option String × List Report) → DB → DB × Option (ℕ × String)
  | _, [], db => (db, none)
  | _, (none, _) :: _, db =>
    (db, some (500, "AI analysis failed: validation error for AIUpdate"))
  | idx, (some city, ms) :: rest, db =>
    let db1 := { db with
      ai_updates := db.ai_updates ++ [mkAIUpdate (mkId idx) now city ms] }
    let db2 := { db1 with reports := patchReports now ms db1.reports }
    processGroups mkId now (idx + 1) rest db2

/-- The body of `trigger_ai_analysis` from the no-reports check onward
(server.py:292-372), as a function of the recent reports the (broken) fetch
would have produced.  `mkId` supplies the generated UUID for the `idx`-th
group's `AIUpdate`. -/
def analyze_recent_reports (recent : List Report) (mkId : ℕ → String)
    (now : ℤ) (db : DB) : DB × HandlerResult AnalyzeResult :=
  if recent.isEmpty then (db, .ok .noReports)
  else
    let groups := groupByCity recent
    match processGroups mkId now 0 groups db with
    | (db2, none) => (db2, .ok (.completed groups.length groups.length))
    | (db2, some e) => (db2, .error e)

/-- C7: the claim says triggering `/ai/analyze` (admin, key configured) with
no report created in the last 24 hours returns a successful no-op with a
"no reports" message and creates zero `AIUpdate` records.  The code's
no-reports branch (server.py:292-293) does exactly that, but it is
unreachable: with the key configured the handler raises `AttributeError`
(`datetime.timedelta` — `datetime` names the class, not the module) while
building the fetch query, and the blanket `except` turns it into a 500 — on
an empty database as on any other.  The theorem evaluates the handler at the
failing input and shows the intended (dead) branch separately. -/
theorem c7_ai_analyze_no_reports :
    trigger_ai_analysis (some "sk-emergent-key") emptyDB
      = (emptyDB, .error (500, ai_attribute_error_detail))
    ∧ analyze_recent_reports [] (fun _ => "aiu-1") 0 emptyDB
      = (emptyDB, .ok .noReports)
    ∧ (analyze_recent_reports [] (fun _ => "aiu-1") 0 emptyDB).1.ai_updates
      = [] :=
  ⟨rfl, rfl, rfl⟩

theorem patchAI_id (now : ℤ) (r : Report) : (patchAI now r).id = r.id := rfl

theorem patchAI_idem (now : ℤ) (r : Report) :
    patchAI now (patchAI now r) = patchAI now r := rfl

/-- Permutations preserve bounded existentials. -/
theorem bex_iff_of_perm {l₁ l₂ : List α} (p : α → Prop)
    (h : List.Perm l₁ l₂) : (∃ x ∈ l₁, p x) ↔ (∃ x ∈ l₂, p x) := by
  constructor
  · rintro ⟨x, hx, hp⟩
    exact ⟨x, h.mem_iff.mp hx, hp⟩
  · rintro ⟨x, hx, hp⟩
    exact ⟨x, h.mem_iff.mpr hx, hp⟩

/-- Under unique ids, an `update_one` by id equals the pointwise rewrite of
every matching element (there is at most one). -/
theorem updateFirst_eq_map_of_nodup (x : String) (f : Report → Report)
    (l : List Report) (h : (l.map Report.id).Nodup) :
    updateFirst (fun r => r.id == x) f l
      = l.map (fun r => if r.id = x then f r else r) := by
  induction l with
  | nil => rfl
  | cons r t ih =>
    rw [List.map_cons] at h
    obtain ⟨hr, ht⟩ := List.nodup_cons.mp h
    by_cases hx : r.id = x
    · have hnot : ∀ y ∈ t, ¬ y.id = x := by
        intro y hy he
        exact hr (by
          rw [hx, ← he]
          exact List.mem_map.mpr ⟨y, hy, rfl⟩)
      have htid : t.map (fun y => if y.id = x then f y else y) = t := by
        rw [List.map_congr_left (fun y hy => if_neg (hnot y hy))]
        exact List.map_id' t
      have hxb : (r.id == x) = true := beq_iff_eq.mpr hx
      simp only [updateFirst, List.map_cons, hxb, if_true]
      rw [if_pos hx, htid]
    · have hxb : (r.id == x) = false := by
        simp [hx]
      simp only [updateFirst, List.map_cons, hxb]
      rw [if_neg (by simp), if_neg hx, ih ht]

/-- Functions preserving `id` leave the id column of a map unchanged. -/
theorem map_id_col_of_preserve (g : Report → Report)
    (hg : ∀ r, (g r).id = r.id) (l : List Report) :
    (l.map g).map Report.id = l.map Report.id := by
  rw [List.map_map]
  exact List.map_congr_left (fun r _ => hg r)

/-- Under unique ids, the member-by-member patch loop equals one pointwise
map: a report is patched exactly when some member shares its id (patching is
idempotent, so duplicate members are harmless). -/
theorem patchReports_eq_map (now : ℤ) (ms l : List Report)
    (h : (l.map Report.id).Nodup) :
    patchReports now ms l
      = l.map (fun r =>
          if ∃ m ∈ ms, m.id = r.id then patchAI now r else r) := by
  induction ms generalizing l with
  | nil =>
    have : ∀ r ∈ l, (if ∃ m ∈ ([] : List Report), m.id = r.id
        then patchAI now r else r) = r := by
      intro r _
      rw [if_neg]
      rintro ⟨m, hm, _⟩
      exact List.not_mem_nil m hm
    rw [patchReports, List.foldl_nil, List.map_congr_left this, List.map_id']
  | cons m rest ih =>
    have hstep : patchReports now (m :: rest) l
        = patchReports now rest
            (updateFirst (fun r => r.id == m.id) (patchAI now) l) := rfl
    rw [hstep, updateFirst_eq_map_of_nodup m.id (patchAI now) l h]
    have hpres : ∀ r : Report,
        ((fun r => if r.id = m.id then patchAI now r else r) r).id = r.id := by
      intro r
      show (if r.id = m.id then patchAI now r else r).id = r.id
      by_cases hx : r.id = m.id
      · rw [if_pos hx, patchAI_id]
      · rw [if_neg hx]
    have hids : ((l.map (fun r => if r.id = m.id then patchAI now r else r)).map
        Report.id).Nodup := by
      rw [map_id_col_of_preserve _ hpres]
      exact h
    rw [ih _ hids, List.map_map]
    apply List.map_congr_left
    intro r _
    show (if ∃ m2 ∈ rest, m2.id = (if r.id = m.id then patchAI now r else r).id
        then patchAI now (if r.id = m.id then patchAI now r else r)
        else (if r.id = m.id then patchAI now r else r))
      = if ∃ m2 ∈ m :: rest, m2.id = r.id then patchAI now r else r
    by_cases hx : r.id = m.id
    · rw [if_pos hx, patchAI_id]
      by_cases hrest : ∃ m2 ∈ rest, m2.id = r.id
      · rw [if_pos hrest, patchAI_idem,
          if_pos ⟨m, List.mem_cons_self m rest, hx.symm⟩]
      · rw [if_neg hrest, if_pos ⟨m, List.mem_cons_self m rest, hx.symm⟩]
    · rw [if_neg hx]
      by_cases hrest : ∃ m2 ∈ rest, m2.id = r.id
      · obtain ⟨m2, hm2, he2⟩ := hrest
        rw [if_pos ⟨m2, hm2, he2⟩,
          if_pos ⟨m2, List.mem_cons_of_mem m hm2, he2⟩]
      · rw [if_neg hrest, if_neg]
        rintro ⟨m2, hm2, he2⟩
        rcases List.mem_cons.mp hm2 with h2 | h2
        · exact hx (by rw [← he2, h2])
        · exact hrest ⟨m2, h2, he2⟩

/-- Keys after inserting into the grouping accumulator. -/
theorem mem_keys_insertGrouped (k k2 : Option String) (r : Report)
    (gs : List (Option String × List Report)) :
    k2 ∈ (insertGrouped k r gs).map Prod.fst
      ↔ k2 ∈ gs.map Prod.fst ∨ k2 = k := by
  induction gs with
  | nil => simp [insertGrouped]
  | cons p rest ih =>
    obtain ⟨k3, g⟩ := p
    by_cases hk : (k3 == k) = true
    · have hk3 : k3 = k := by simpa using hk
      subst hk3
      simp only [insertGrouped, if_pos hk, List.map_cons, List.mem_cons]
      tauto
    · simp only [insertGrouped, if_neg hk, List.map_cons, List.mem_cons, ih]
      tauto

/-- Inserting preserves key uniqueness. -/
theorem keys_nodup_insertGrouped (k : Option String) (r : Report)
    (gs : List (Option String × List Report))
    (h : (gs.map Prod.fst).Nodup) :
    ((insertGrouped k r gs).map Prod.fst).Nodup := by
  induction gs with
  | nil => simp [insertGrouped]
  | cons p rest ih =>
    obtain ⟨k3, g⟩ := p
    rw [List.map_cons] at h
    obtain ⟨hk3, hrest⟩ := List.nodup_cons.mp h
    by_cases hk : (k3 == k) = true
    · have hk3eq : k3 = k := by simpa using hk
      subst hk3eq
      simp only [insertGrouped, if_pos hk, List.map_cons]
      exact List.nodup_cons.mpr ⟨hk3, hrest⟩
    · have hk3ne : k3 ≠ k := by simpa using hk
      simp only [insertGrouped, if_neg hk, List.map_cons]
      refine List.nodup_cons.mpr ⟨?_, ih hrest⟩
      rw [mem_keys_insertGrouped]
      rintro (hmem | he)
      · exact hk3 hmem
      · exact hk3ne he

/-- Inserting preserves the group invariant: groups are nonempty and hold
exactly the reports whose `city` equals the group key. -/
theorem insertGrouped_groups (k : Option String) (r : Report)
    (gs : List (Option String × List Report))
    (hg : ∀ p ∈ gs, p.2 ≠ [] ∧ ∀ m ∈ p.2, m.city = p.1) (hr : r.city = k) :
    ∀ p ∈ insertGrouped k r gs, p.2 ≠ [] ∧ ∀ m ∈ p.2, m.city = p.1 := by
  induction gs with
  | nil =>
    intro p hp
    rcases List.mem_cons.mp hp with h | h
    · subst h
      refine ⟨by simp, ?_⟩
      intro m hm
      rw [List.mem_singleton.mp hm]
      exact hr
    · cases List.not_mem_nil p h
  | cons q rest ih =>
    obtain ⟨k3, g⟩ := q
    by_cases hk : (k3 == k) = true
    · have hk3eq : k3 = k := by simpa using hk
      subst hk3eq
      intro p hp
      rw [insertGrouped, if_pos hk] at hp
      rcases List.mem_cons.mp hp with h | h
      · subst h
        refine ⟨by simp, ?_⟩
        intro m hm
        rcases List.mem_append.mp hm with h2 | h2
        · exact (hg (k3, g) (List.mem_cons_self _ _)).2 m h2
        · rw [List.mem_singleton.mp h2]
          exact hr
      · exact hg p (List.mem_cons_of_mem _ h)
    · intro p hp
      rw [insertGrouped, if_neg hk] at hp
      rcases List.mem_cons.mp hp with h | h
      · subst h
        exact hg (k3, g) (List.mem_cons_self _ _)
      · exact ih (fun q hq => hg q (List.mem_cons_of_mem _ hq)) p h

/-- Inserting a report adds exactly that report to the grouped contents. -/
theorem flat_insertGrouped (k : Option String) (r : Report)
    (gs : List (Option String × List Report)) :
    List.Perm ((insertGrouped k r gs).flatMap Prod.snd)
      (gs.flatMap Prod.snd ++ [r]) := by
  induction gs with
  | nil => simp [insertGrouped]
  | cons q rest ih =>
    obtain ⟨k3, g⟩ := q
    by_cases hk : (k3 == k) = true
    · rw [insertGrouped, if_pos hk]
      simp only [List.flatMap_cons, List.append_assoc]
      exact List.Perm.append_left g List.perm_append_comm
    · rw [insertGrouped, if_neg hk]
      simp only [List.flatMap_cons, List.append_assoc]
      exact List.Perm.append_left g ih

/-- Invariants of the grouping fold: unique keys, group contents keyed by
`city`, and the grouped contents a permutation of the input. -/
theorem foldl_insertGrouped_props (l : List Report) :
    ∀ acc : List (Option String × List Report),
      (acc.map Prod.fst).Nodup →
      (∀ p ∈ acc, p.2 ≠ [] ∧ ∀ m ∈ p.2, m.city = p.1) →
      (((l.foldl (fun a r => insertGrouped r.city r a) acc).map
          Prod.fst).Nodup
        ∧ (∀ p ∈ l.foldl (fun a r => insertGrouped r.city r a) acc,
            p.2 ≠ [] ∧ ∀ m ∈ p.2, m.city = p.1)
        ∧ List.Perm ((l.foldl (fun a r => insertGrouped r.city r a)
              acc).flatMap Prod.snd)
            (acc.flatMap Prod.snd ++ l)) := by
  induction l with
  | nil =>
    intro acc h1 h2
    exact ⟨h1, h2, by simp⟩
  | cons r t ih =>
    intro acc h1 h2
    have h1' := keys_nodup_insertGrouped r.city r acc h1
    have h2' := insertGrouped_groups r.city r acc h2 rfl
    obtain ⟨ha, hb, hc⟩ := ih (insertGrouped r.city r acc) h1' h2'
    refine ⟨ha, hb, ?_⟩
    have hstep := flat_insertGrouped r.city r acc
    refine hc.trans ((hstep.append_right t).trans ?_)
    rw [List.append_assoc, List.singleton_append]

/-- The grouping pass: unique city keys, nonempty groups holding exactly the
reports with that `city`, and contents a permutation of the input. -/
theorem groupByCity_props (l : List Report) :
    ((groupByCity l).map Prod.fst).Nodup
    ∧ (∀ p ∈ groupByCity l, p.2 ≠ [] ∧ ∀ m ∈ p.2, m.city = p.1)
    ∧ List.Perm ((groupByCity l).flatMap Prod.snd) l := by
  have h := foldl_insertGrouped_props l []
    (by simp) (by intro p hp; cases List.not_mem_nil p hp)
  simpa [groupByCity] using h

/-- The `AIUpdate` records the per-city loop persists, one per group in
order, with the `idx`-th generated id (stops at a null key, where the loop
raises instead). -/
def mkGroupUpdates (mkId : ℕ → String) (now : ℤ) :
    ℕ → List (Option String × List Report) → List AIUpdate
  | _, [] => []
  | _, (none, _) :: _ => []
  | idx, (some c, ms) :: rest =>
    mkAIUpdate (mkId idx) now c ms :: mkGroupUpdates mkId now (idx + 1) rest

/-- When every group has a (string) key, the per-city loop succeeds,
appending exactly one `AIUpdate` per group and patching all the grouped
members. -/
theorem processGroups_spec (mkId : ℕ → String) (now : ℤ)
    (gs : List (Option String × List Report))
    (hkeys : ∀ p ∈ gs, p.1 ≠ none) :
    ∀ idx db, processGroups mkId now idx gs db
      = ({ db with
            ai_updates := db.ai_updates ++ mkGroupUpdates mkId now idx gs,
            reports := patchReports now (gs.flatMap Prod.snd) db.reports },
         none) := by
  induction gs with
  | nil =>
    intro idx db
    simp [processGroups, mkGroupUpdates, patchReports]
  | cons p rest ih =>
    intro idx db
    obtain ⟨k, ms⟩ := p
    match k with
    | none => exact absurd rfl (hkeys (none, ms) (List.mem_cons_self _ _))
    | some c =>
      have ih' := ih (fun q hq => hkeys q (List.mem_cons_of_mem _ hq))
      have hrep : patchReports now (rest.flatMap Prod.snd)
          (patchReports now ms db.reports)
          = patchReports now (ms ++ rest.flatMap Prod.snd) db.reports := by
        simp only [patchReports]
        rw [List.foldl_append]
      rw [processGroups]
      rw [ih' (idx + 1)]
      simp only [List.flatMap_cons, mkGroupUpdates]
      rw [hrep, List.append_assoc, List.singleton_append]

/-- The mock score does not exceed the auto-flag threshold, so
`ai_auto_flag = (score > 0.7)` is false. -/
theorem mockScore_not_gt_threshold : ¬ (mockScore > 7 / 10) := by
  norm_num [mockScore]

/-- A key list without duplicates holds a present key exactly once. -/
theorem countP_keys_nodup (c : String) (keys : List (Option String))
    (h : keys.Nodup) (hm : some c ∈ keys) :
    keys.countP (fun k => k == some c) = 1 := by
  induction keys with
  | nil => cases hm
  | cons k rest ih =>
    obtain ⟨hk, hrest⟩ := List.nodup_cons.mp h
    rw [List.countP_cons]
    rcases List.mem_cons.mp hm with he | hmem
    · have h0 : rest.countP (fun k2 => k2 == some c) = 0 := by
        rw [List.countP_eq_zero]
        intro a ha hbeq
        have ha2 : a = some c := by simpa using hbeq
        exact hk (by
          rw [← he]
          exact ha2 ▸ ha)
      rw [h0, ← he]
      simp
    · have hne : k ≠ some c := fun he2 => hk (he2 ▸ hmem)
      have hkb : (k == some c) = false := by simpa using hne
      rw [ih hrest hmem, hkb]
      simp

/-- The loop persists per group one update whose `region_name` is the group's
city, so the count of updates named `c` equals the count of groups keyed
`c`. -/
theorem countP_mkGroupUpdates (mkId : ℕ → String) (now : ℤ) (c : String)
    (gs : List (Option String × List Report))
    (hkeys : ∀ p ∈ gs, p.1 ≠ none) :
    ∀ idx, (mkGroupUpdates mkId now idx gs).countP
        (fun u => u.region_name == c)
      = (gs.map Prod.fst).countP (fun k => k == some c) := by
  induction gs with
  | nil => intro idx; rfl
  | cons p rest ih =>
    intro idx
    obtain ⟨k, ms⟩ := p
    match k with
    | none => exact absurd rfl (hkeys (none, ms) (List.mem_cons_self _ _))
    | some c2 =>
      have ih' := ih (fun q hq => hkeys q (List.mem_cons_of_mem _ hq))
      simp only [mkGroupUpdates, List.map_cons]
      rw [List.countP_cons, List.countP_cons, ih' (idx + 1)]
      by_cases he : c2 = c
      · subst he
        simp [mkAIUpdate]
      · have h1 : ((mkAIUpdate (mkId idx) now c2 ms).region_name == c)
            = false := by simpa [mkAIUpdate] using he
        have h2 : ((some c2 : Option String) == some c) = false := by
          simpa using he
        rw [h1, h2]

/-- Every persisted update carries `region = "city"` and the run
timestamp. -/
theorem mem_mkGroupUpdates (mkId : ℕ → String) (now : ℤ)
    (gs : List (Option String × List Report)) :
    ∀ idx u, u ∈ mkGroupUpdates mkId now idx gs →
      u.region = "city" ∧ u.last_run_at = now := by
  induction gs with
  | nil =>
    intro idx u hu
    cases List.not_mem_nil u hu
  | cons p rest ih =>
    intro idx u hu
    obtain ⟨k, ms⟩ := p
    match k with
    | none => cases List.not_mem_nil u hu
    | some c2 =>
      rcases List.mem_cons.mp hu with he | hmem
      · subst he
        exact ⟨rfl, rfl⟩
      · exact ih (idx + 1) u hmem

/-- C8: given the recent reports the fetch would deliver (every stored report
carries a non-null `city` here; a null city would abort the loop inside the
blanket `except`, see `processGroups`), the per-city loop persists exactly
one `AIUpdate` per city group, keyed `region="city"` / `region_name = city`
and stamped with the run time; and every report of every group is patched:
`ai_severity_score` becomes the group's score (the fixed mock 0.6),
`ai_auto_flag` becomes `score > 0.7` — false for 0.6 — and `updated_at` is
refreshed.  Stored ids are assumed unique (they are generated UUIDs). -/
theorem c8_aggregation_per_group (recent : List Report) (mkId : ℕ → String)
    (now : ℤ) (db : DB)
    (hcity : ∀ r ∈ recent, r.city ≠ none)
    (hids : (db.reports.map Report.id).Nodup) :
    (analyze_recent_reports recent mkId now db).1.ai_updates
        = db.ai_updates ++ mkGroupUpdates mkId now 0 (groupByCity recent)
    ∧ (recent ≠ [] →
        (analyze_recent_reports recent mkId now db).2
          = .ok (.completed (groupByCity recent).length
              (groupByCity recent).length))
    ∧ (∀ c ms, (some c, ms) ∈ groupByCity recent →
        (mkGroupUpdates mkId now 0 (groupByCity recent)).countP
            (fun u => u.region_name == c) = 1
        ∧ ms ≠ [] ∧ (∀ m ∈ ms, m.city = some c) ∧ (∀ m ∈ ms, m ∈ recent))
    ∧ (∀ u ∈ mkGroupUpdates mkId now 0 (groupByCity recent),
        u.region = "city" ∧ u.last_run_at = now)
    ∧ (analyze_recent_reports recent mkId now db).1.reports
        = db.reports.map (fun r =>
            if ∃ m ∈ recent, m.id = r.id then patchAI now r else r)
    ∧ (∀ r : Report,
        (patchAI now r).ai_severity_score = some mockScore
        ∧ (patchAI now r).ai_auto_flag = decide (mockScore > 7 / 10)
        ∧ (patchAI now r).ai_auto_flag = false
        ∧ (patchAI now r).updated_at = now) := by
  obtain ⟨hnodup, hgroups, hperm⟩ := groupByCity_props recent
  have hmemrec : ∀ p ∈ groupByCity recent, ∀ m ∈ p.2, m ∈ recent := by
    intro p hp m hm
    exact hperm.mem_iff.mp (List.mem_flatMap.mpr ⟨p, hp, hm⟩)
  have hkeys : ∀ p ∈ groupByCity recent, p.1 ≠ none := by
    intro p hp hnone
    obtain ⟨hne, hcities⟩ := hgroups p hp
    match hms : p.2 with
    | [] => exact hne hms
    | m :: t =>
      have hm : m ∈ p.2 := by
        rw [hms]
        exact List.mem_cons_self m t
      have : m.city = none := by
        rw [hcities m hm, hnone]
      exact hcity m (hmemrec p hp m hm) this
  have hpatch : ∀ r : Report,
      (patchAI now r).ai_severity_score = some mockScore
      ∧ (patchAI now r).ai_auto_flag = decide (mockScore > 7 / 10)
      ∧ (patchAI now r).ai_auto_flag = false
      ∧ (patchAI now r).updated_at = now := by
    intro r
    refine ⟨rfl, rfl, ?_, rfl⟩
    show decide (mockScore > 7 / 10) = false
    exact decide_eq_false mockScore_not_gt_threshold
  have hthird : ∀ c ms, (some c, ms) ∈ groupByCity recent →
      (mkGroupUpdates mkId now 0 (groupByCity recent)).countP
          (fun u => u.region_name == c) = 1
      ∧ ms ≠ [] ∧ (∀ m ∈ ms, m.city = some c) ∧ (∀ m ∈ ms, m ∈ recent) := by
    intro c ms hmem
    refine ⟨?_, (hgroups _ hmem).1, (hgroups _ hmem).2, hmemrec _ hmem⟩
    rw [countP_mkGroupUpdates mkId now c (groupByCity recent) hkeys 0]
    exact countP_keys_nodup c _ hnodup
      (List.mem_map.mpr ⟨(some c, ms), hmem, rfl⟩)
  by_cases hnil : recent = []
  · subst hnil
    refine ⟨by simp [analyze_recent_reports, groupByCity, mkGroupUpdates],
      fun h => absurd rfl h, hthird, mem_mkGroupUpdates mkId now _ 0, ?_,
      hpatch⟩
    have : ∀ r ∈ db.reports,
        (if ∃ m ∈ ([] : List Report), m.id = r.id
          then patchAI now r else r) = r := by
      intro r _
      rw [if_neg]
      rintro ⟨m, hm, _⟩
      exact List.not_mem_nil m hm
    rw [List.map_congr_left this, List.map_id']
    rfl
  · have hne : recent.isEmpty = false := by
      cases recent with
      | nil => exact absurd rfl hnil
      | cons a t => rfl
    have hspec := processGroups_spec mkId now (groupByCity recent) hkeys 0 db
    have hana : analyze_recent_reports recent mkId now db
        = ({ db with
              ai_updates := db.ai_updates
                ++ mkGroupUpdates mkId now 0 (groupByCity recent),
              reports := patchReports now
                ((groupByCity recent).flatMap Prod.snd) db.reports },
           .ok (.completed (groupByCity recent).length
              (groupByCity recent).length)) := by
      simp only [analyze_recent_reports, hne, Bool.false_eq_true, if_false,
        hspec]
    refine ⟨by rw [hana], fun _ => by rw [hana], hthird,
      mem_mkGroupUpdates mkId now _ 0, ?_, hpatch⟩
    rw [hana]
    show patchReports now ((groupByCity recent).flatMap Prod.snd) db.reports
      = _
    rw [patchReports_eq_map now _ db.reports hids]
    exact List.map_congr_left (fun r _ =>
      if_congr (bex_iff_of_perm (fun m => m.id = r.id) hperm) rfl rfl)

/-- Witness for C8: on the concrete two-report database, analysing the single
recent Paris report yields exactly one update named "Paris" and patches
exactly the report with that id. -/
theorem c8_aggregation_per_group_witness :
    (mkGroupUpdates (fun _ => "aiu-0") 77 0
        (groupByCity [reportParis])).countP
        (fun u => u.region_name == "Paris") = 1
    ∧ (analyze_recent_reports [reportParis] (fun _ => "aiu-0") 77
          exDb3).1.reports
        = exDb3.reports.map (fun r =>
            if ∃ m ∈ [reportParis], m.id = r.id then patchAI 77 r else r) := by
  have h := c8_aggregation_per_group [reportParis] (fun _ => "aiu-0") 77 exDb3
    (by decide) (by decide)
  exact ⟨(h.2.2.1 "Paris" [reportParis] (by decide)).1, h.2.2.2.2.1⟩
